import Mathlib

/-!
Verification of the reward-distribution and ledger-accounting engine of the
tonvera custodial staking-pool backend.

The TypeScript source keeps balances as decimal strings and the specification
mandates decimal (not binary floating point) arithmetic, so every amount is
modelled as a rational number.  The `toFixed(9)` serialization the source
applies before persisting a balance is modelled by `round9`.

Source files embedded below:
  - src/server/firestoreManager.ts  (user store, rate resolver, premium
    handling, `distributeRewards`, `distributeUserRewardWithPremium`,
    `processReferralBonus`, `processReferral`)
  - src/server/adminWallet.ts       (`processDirectDeposit`,
    `processDirectWithdrawal`)
  - src/server/depositHandler.ts    (`calculateAndDistributeRewards`:
    commission extractor and the reward-referral block)
-/

namespace Tonvera

/-- Rounding to 9 fraction digits: the model of the `x.toFixed(9)`
serialization applied by the source before a balance is persisted. -/
def round9 (q : ℚ) : ℚ := (⌊q * 10 ^ 9 + 1 / 2⌋ : ℚ) / 10 ^ 9

/-- A rational exactly representable with 9 fraction digits (the persisted
balance format). -/
def Is9dp (q : ℚ) : Prop := ∃ n : ℤ, q = (n : ℚ) / 10 ^ 9

theorem round9_eq_self {q : ℚ} (h : Is9dp q) : round9 q = q := by
  obtain ⟨n, rfl⟩ := h
  unfold round9
  have h1 : (n : ℚ) / 10 ^ 9 * 10 ^ 9 = (n : ℚ) := by
    field_simp
  rw [h1]
  have h2 : ⌊(n : ℚ) + 1 / 2⌋ = n := by
    rw [add_comm, Int.floor_add_int]
    norm_num
  rw [h2]

theorem Is9dp.add {a b : ℚ} (ha : Is9dp a) (hb : Is9dp b) : Is9dp (a + b) := by
  obtain ⟨n, rfl⟩ := ha
  obtain ⟨m, rfl⟩ := hb
  exact ⟨n + m, by push_cast; ring⟩

theorem Is9dp.sub {a b : ℚ} (ha : Is9dp a) (hb : Is9dp b) : Is9dp (a - b) := by
  obtain ⟨n, rfl⟩ := ha
  obtain ⟨m, rfl⟩ := hb
  exact ⟨n - m, by push_cast; ring⟩

/-- ADMIN_COMMISSION_RATE = 0.12 in src/server/depositHandler.ts; the same
literal 0.12 appears inline in `distributeUserRewardWithPremium`. -/
def ADMIN_COMMISSION_RATE : ℚ := 12 / 100

/-- REFERRAL_BONUS_RATE = 0.10 in src/server/depositHandler.ts; the same
literal 0.10 appears inline in `processReferralBonus`. -/
def REFERRAL_BONUS_RATE : ℚ := 10 / 100

/-- Transaction `type` values used across the source modules. -/
inductive TxType
  | deposit
  | withdraw
  | withdrawal
  | reward
  | referral
  | referral_bonus
  | premium_payment
  deriving DecidableEq

/-- Transaction `status` values. -/
inductive TxStatus
  | pending
  | completed
  | failed
  deriving DecidableEq

/-- UserData from src/server/firestoreManager.ts, together with the premium
fields (`isPremium`, `premiumExpiresAt`, `premiumRate`) that the source reads
and writes dynamically on the same documents.  Timestamps are modelled as
rationals. -/
structure UserData where
  id : String
  stakedAmount : ℚ
  rewardsBalance : ℚ
  totalEarnings : ℚ
  referralCode : String
  referredBy : Option String
  isPremium : Bool
  premiumExpiresAt : Option ℚ
  premiumRate : ℚ
  deriving DecidableEq

/-- TransactionData from src/server/firestoreManager.ts (free-text fields
such as `description` and `txHash` are omitted). -/
structure TransactionData where
  userId : String
  type : TxType
  amount : ℚ
  status : TxStatus
  deriving DecidableEq

/-- PoolData from src/server/firestoreManager.ts. -/
structure PoolData where
  totalStaked : ℚ
  totalRewards : ℚ
  dailyRate : ℚ
  adminCommission : ℚ
  lastRewardDistribution : Option ℚ
  deriving DecidableEq

/-- A referral record (`createReferral` in the storage layer used by
src/server/depositHandler.ts). -/
structure ReferralData where
  referrer : String
  referred : String
  depositAmount : ℚ
  bonus : ℚ
  deriving DecidableEq

/-- The Firestore document store as seen by firestoreManager.ts: the `users`
collection, the append-only `transactions` collection, the `referrals`
collection (written only by the depositHandler storage layer, never by
firestoreManager) and the `pool/main` singleton. -/
structure FsState where
  users : List UserData
  transactions : List TransactionData
  referrals : List ReferralData
  pool : PoolData
  deriving DecidableEq

/-- Lookup of a user document by id. -/
def findUser (s : FsState) (uid : String) : Option UserData :=
  s.users.find? fun u => decide (u.id = uid)

/-- A partial update of a user document, as passed to `updateUserBalance`
(`userRef.update({...updates})` merges only the supplied fields). -/
structure UserUpdate where
  stakedAmount : Option ℚ := none
  rewardsBalance : Option ℚ := none
  totalEarnings : Option ℚ := none
  referredBy : Option (Option String) := none
  isPremium : Option Bool := none
  premiumExpiresAt : Option (Option ℚ) := none
  premiumRate : Option ℚ := none
  deriving DecidableEq

/-- Merge a partial update into a user document. -/
def applyUpdate (u : UserData) (w : UserUpdate) : UserData :=
  { u with
    stakedAmount := w.stakedAmount.getD u.stakedAmount
    rewardsBalance := w.rewardsBalance.getD u.rewardsBalance
    totalEarnings := w.totalEarnings.getD u.totalEarnings
    referredBy := w.referredBy.getD u.referredBy
    isPremium := w.isPremium.getD u.isPremium
    premiumExpiresAt := w.premiumExpiresAt.getD u.premiumExpiresAt
    premiumRate := w.premiumRate.getD u.premiumRate }

/-- updateUserBalance from src/server/firestoreManager.ts: a merge update of
the user document. -/
def updateUserBalance (s : FsState) (uid : String) (w : UserUpdate) : FsState :=
  { s with users := s.users.map fun u => if u.id = uid then applyUpdate u w else u }

/-- logTransaction from src/server/firestoreManager.ts: append to the
`transactions` collection. -/
def logTransaction (s : FsState) (t : TransactionData) : FsState :=
  { s with transactions := s.transactions ++ [t] }

/-- getUserData from src/server/firestoreManager.ts: fetch the user document,
creating a zero-balance document when none exists.  The randomly generated
referral code is modelled by the user id itself. -/
def getUserData (s : FsState) (uid : String) : UserData × FsState :=
  match findUser s uid with
  | some u => (u, s)
  | none =>
      let u : UserData :=
        { id := uid, stakedAmount := 0, rewardsBalance := 0, totalEarnings := 0
          referralCode := uid, referredBy := none, isPremium := false
          premiumExpiresAt := none, premiumRate := 87 / 10 }
      (u, { s with users := s.users ++ [u] })

/-- The premium-activity test of `distributeUserRewardWithPremium`
(firestoreManager.ts lines 520-522):
`user.isPremium && (!user.premiumExpiresAt || premiumExpiresAt > now)`. -/
def isPremiumActive (u : UserData) (now : ℚ) : Bool :=
  u.isPremium &&
    match u.premiumExpiresAt with
    | none => true
    | some e => decide (now < e)

/-- The auto-expiry test of `distributeUserRewardWithPremium`
(firestoreManager.ts line 525):
`user.isPremium && user.premiumExpiresAt && premiumExpiresAt < now`. -/
def premiumExpired (u : UserData) (now : ℚ) : Bool :=
  u.isPremium &&
    match u.premiumExpiresAt with
    | none => false
    | some e => decide (e < now)

/-- `apyRate = isPremium ? 0.105 : 0.087` (firestoreManager.ts line 531). -/
def apyRate (u : UserData) (now : ℚ) : ℚ :=
  if isPremiumActive u now then 105 / 1000 else 87 / 1000

/-- `dailyRate = apyRate / 365` (firestoreManager.ts line 532). -/
def dailyRate (u : UserData) (now : ℚ) : ℚ := apyRate u now / 365

/-- `userReward = userStake * dailyRate` (firestoreManager.ts line 533): the
gross reward of one account for one day. -/
def grossReward (u : UserData) (now : ℚ) : ℚ := u.stakedAmount * dailyRate u now

/-- `adminCommission = userReward * 0.12` (firestoreManager.ts line 536): the
per-account commission deduction. -/
def accountCommission (u : UserData) (now : ℚ) : ℚ :=
  grossReward u now * ADMIN_COMMISSION_RATE

/-- `netUserReward = userReward - adminCommission` (firestoreManager.ts
line 537). -/
def netReward (u : UserData) (now : ℚ) : ℚ :=
  grossReward u now - accountCommission u now

/-- The set of accounts processed by a run: `getAllUsersWithStakes` selects
the users with `stakedAmount > 0`. -/
def stakingUsers (s : FsState) : List UserData :=
  s.users.filter fun u => decide (0 < u.stakedAmount)

/-- updateUserPremiumStatus from src/server/firestoreManager.ts: a standalone
merge update of the premium fields, followed by a `premium_payment`
transaction (amount 2 on activation, 0 on expiry). -/
def updateUserPremiumStatus (s : FsState) (uid : String) (isP : Bool)
    (expiresAt : Option ℚ) (rate : ℚ) : FsState :=
  let s1 := updateUserBalance s uid
    { isPremium := some isP, premiumExpiresAt := some expiresAt,
      premiumRate := some rate }
  logTransaction s1
    { userId := uid, type := TxType.premium_payment,
      amount := if isP then 2 else 0, status := TxStatus.completed }

/-- The partial update issued by the auto-expiry call
`updateUserPremiumStatus(user.id, false, null, 8.7)`
(firestoreManager.ts line 526). -/
def premiumClearUpdate : UserUpdate :=
  { isPremium := some false, premiumExpiresAt := some none,
    premiumRate := some (87 / 10) }

/-- The partial update issued by the reward credit
(firestoreManager.ts lines 540-546): rewardsBalance and totalEarnings are
read from the in-memory snapshot, incremented by the net reward and written
back with toFixed(9). -/
def rewardCreditUpdate (u : UserData) (now : ℚ) : UserUpdate :=
  { rewardsBalance := some (round9 (u.rewardsBalance + netReward u now))
    totalEarnings := some (round9 (u.totalEarnings + netReward u now)) }

/-- The sequence of user-document updates that
`distributeUserRewardWithPremium` issues for one processed account on its
success path: the expired-premium downgrade (when applicable) as one update,
then the reward credit as a second, independent update. -/
def accountWrites (u : UserData) (now : ℚ) : List (String × UserUpdate) :=
  (if premiumExpired u now then [(u.id, premiumClearUpdate)] else [])
    ++ [(u.id, rewardCreditUpdate u now)]

/-- Sequential application of user-document updates. -/
def applyWrites (s : FsState) (ws : List (String × UserUpdate)) : FsState :=
  ws.foldl (fun st w => updateUserBalance st w.1 w.2) s

/-- processReferralBonus from src/server/firestoreManager.ts: credit 10
percent of the referee net reward to the referrer (refetched from the store,
created when missing), then log one `referral` transaction.  No referral
record is written and the bonus is not itself commissioned or cascaded. -/
def processReferralBonus (s : FsState) (referrerId : String)
    (refereeReward : ℚ) (_refereeId : String) : FsState :=
  let referralBonus := refereeReward * REFERRAL_BONUS_RATE
  let g := getUserData s referrerId
  let referrerData := g.1
  let s1 := g.2
  let s2 := updateUserBalance s1 referrerId
    { rewardsBalance := some (round9 (referrerData.rewardsBalance + referralBonus))
      totalEarnings := some (round9 (referrerData.totalEarnings + referralBonus)) }
  logTransaction s2
    { userId := referrerId, type := TxType.referral,
      amount := round9 referralBonus, status := TxStatus.completed }

/-- distributeUserRewardWithPremium from src/server/firestoreManager.ts.
`failing` injects a write failure on the reward-credit update of the listed
accounts (the simulated per-account conflict): the surrounding try/catch
swallows the error with a console log only, so a failing account keeps its
prior balances and produces no transaction record of any kind.  The unused
`totalStaked` parameter of the source is kept. -/
def distributeUserRewardWithPremium (failing : List String) (s : FsState)
    (u : UserData) (_totalStaked : ℚ) (now : ℚ) : FsState :=
  let s1 :=
    if premiumExpired u now then
      updateUserPremiumStatus s u.id false none (87 / 10)
    else s
  if u.id ∈ failing then s1
  else
    let s2 := updateUserBalance s1 u.id (rewardCreditUpdate u now)
    let s3 := logTransaction s2
      { userId := u.id, type := TxType.reward,
        amount := round9 (netReward u now), status := TxStatus.completed }
    match u.referredBy with
    | some rid => processReferralBonus s3 rid (netReward u now) u.id
    | none => s3

/-- distributeRewards from src/server/firestoreManager.ts with per-account
failure injection: snapshot the staking users, short-circuit on an empty set
or zero total stake, process every snapshot account in order, then merge
`totalStaked` and `lastRewardDistribution` into the pool document.  No
idempotency marker is consulted anywhere. -/
def distributeRewardsF (failing : List String) (s : FsState) (now : ℚ) :
    FsState :=
  let users := stakingUsers s
  if users.isEmpty then s
  else
    let totalStaked := (users.map fun u => u.stakedAmount).sum
    if totalStaked = 0 then s
    else
      let s1 := users.foldl
        (fun st u => distributeUserRewardWithPremium failing st u totalStaked now) s
      { s1 with pool :=
          { s1.pool with totalStaked := totalStaked,
                         lastRewardDistribution := some now } }

/-- distributeRewards from src/server/firestoreManager.ts (no injected
failures). -/
def distributeRewards (s : FsState) (now : ℚ) : FsState :=
  distributeRewardsF [] s now

/-- Number of transactions of a given type in the store. -/
def countTx (s : FsState) (ty : TxType) : ℕ :=
  (s.transactions.filter fun t => decide (t.type = ty)).length

/-- Number of transactions with status `failed` in the store. -/
def countFailedTx (s : FsState) : ℕ :=
  (s.transactions.filter fun t => decide (t.status = TxStatus.failed)).length

/-- processReferral from src/server/firestoreManager.ts: look the referrer up
by referral code (`limit(1)` modelled by `find?`), reject a self-referral,
otherwise set `referredBy` on the user document. -/
def processReferral (s : FsState) (userId referralCode : String) :
    Bool × FsState :=
  match s.users.find? fun u => decide (u.referralCode = referralCode) with
  | none => (false, s)
  | some referrer =>
      if referrer.id = userId then (false, s)
      else (true, updateUserBalance s userId { referredBy := some (some referrer.id) })

/-- processDirectDeposit from src/server/adminWallet.ts: the user document
gets `stakedAmount := amount` (a replacement, not an addition), then a
completed deposit transaction is appended (the source calls the transaction
append through its firestoreManager import; the append itself is
`logTransaction`).  A Firestore `update()` on a missing document fails, hence
the error branch. -/
def processDirectDeposit (s : FsState) (userId : String) (amount : ℚ) :
    Except String FsState :=
  match findUser s userId with
  | none => Except.error "user-not-found"
  | some _ =>
      let s1 := updateUserBalance s userId { stakedAmount := some amount }
      Except.ok (logTransaction s1
        { userId := userId, type := TxType.deposit, amount := amount,
          status := TxStatus.completed })

/-- processDirectWithdrawal from src/server/adminWallet.ts: fetch the user
(`getUserData`, creating a zero document when missing), throw on
`withdrawAmount > totalAvailable` before any write, otherwise deduct from
rewardsBalance first and only the remainder from stakedAmount, write both
balances with toFixed(9), then append a completed withdrawal transaction.
An error result carries no state: no write precedes the throw. -/
def processDirectWithdrawal (s : FsState) (userId : String) (amount : ℚ) :
    Except String FsState :=
  let g := getUserData s userId
  let userData := g.1
  let s0 := g.2
  let currentStaked := userData.stakedAmount
  let currentRewards := userData.rewardsBalance
  let totalAvailable := currentStaked + currentRewards
  if totalAvailable < amount then Except.error "Insufficient balance"
  else
    let newStaked :=
      if amount ≤ currentRewards then currentStaked
      else currentStaked - (amount - currentRewards)
    let newRewards :=
      if amount ≤ currentRewards then currentRewards - amount else 0
    let s1 := updateUserBalance s0 userId
      { stakedAmount := some (round9 newStaked),
        rewardsBalance := some (round9 newRewards) }
    Except.ok (logTransaction s1
      { userId := userId, type := TxType.withdrawal, amount := amount,
        status := TxStatus.completed })

/-- A user document of the storage layer used by
src/server/depositHandler.ts (`totalStaked`, `totalEarned`, `appBalance`). -/
structure DhUser where
  telegramId : String
  totalStaked : ℚ
  totalEarned : ℚ
  appBalance : ℚ
  referredBy : Option String
  deriving DecidableEq

/-- The store as seen by src/server/depositHandler.ts. -/
structure DhState where
  users : List DhUser
  referrals : List ReferralData
  transactions : List TransactionData
  deriving DecidableEq

/-- getUserByTelegramId of the depositHandler storage layer. -/
def dhFindUser (s : DhState) (tid : String) : Option DhUser :=
  s.users.find? fun u => decide (u.telegramId = tid)

/-- The `updateUser(referrerId, { appBalance })` write of the referral block
of calculateAndDistributeRewards. -/
def dhSetAppBalance (s : DhState) (tid : String) (b : ℚ) : DhState :=
  { s with users := s.users.map fun u =>
      if u.telegramId = tid then { u with appBalance := b } else u }

/-- `adminCommission = grossRewards * 0.12` (depositHandler.ts line 171):
the commission extractor, computed once on the run total. -/
def dhAdminCommission (grossRewards : ℚ) : ℚ :=
  grossRewards * ADMIN_COMMISSION_RATE

/-- `netRewards = grossRewards - adminCommission` (depositHandler.ts
line 172). -/
def dhNetRewards (grossRewards : ℚ) : ℚ :=
  grossRewards - dhAdminCommission grossRewards

/-- `userReward = netRewards * (stakedAmount / totalPoolStaked)`
(depositHandler.ts lines 217-218): the pool-proportional share. -/
def dhUserReward (netRewards stakedAmount totalPoolStaked : ℚ) : ℚ :=
  netRewards * (stakedAmount / totalPoolStaked)

/-- The referral-bonus block of calculateAndDistributeRewards
(depositHandler.ts lines 263-307): when the rewarded user has a referrer and
a positive reward, credit `userReward * 0.10` to the referrer appBalance
(toFixed(9)), append one referral record and one `referral_bonus`
transaction.  A missing referrer is skipped; the referrer totalEarned is not
touched; nothing cascades to the referrer of the referrer. -/
def dhProcessRewardReferral (s : DhState) (u : DhUser) (userReward : ℚ) :
    DhState :=
  match u.referredBy with
  | none => s
  | some rid =>
      if 0 < userReward then
        let referralBonus := userReward * REFERRAL_BONUS_RATE
        match dhFindUser s rid with
        | none => s
        | some referrer =>
            let s1 := dhSetAppBalance s rid
              (round9 (referrer.appBalance + referralBonus))
            let s2 : DhState := { s1 with referrals := s1.referrals ++
              [{ referrer := rid, referred := u.telegramId,
                 depositAmount := round9 userReward,
                 bonus := round9 referralBonus }] }
            { s2 with transactions := s2.transactions ++
              [{ userId := rid, type := TxType.referral_bonus,
                 amount := round9 referralBonus,
                 status := TxStatus.completed }] }
      else s

/-- Number of transactions of a given type in the depositHandler store. -/
def dhCountTx (s : DhState) (ty : TxType) : ℕ :=
  (s.transactions.filter fun t => decide (t.type = ty)).length

/-! Concrete inputs used by counterexamples and witnesses. -/

/-- An active-premium account used as a concrete witness input. -/
def premiumUserEx : UserData :=
  { id := "p", stakedAmount := 1000, rewardsBalance := 0, totalEarnings := 0
    referralCode := "pc", referredBy := none, isPremium := true
    premiumExpiresAt := none, premiumRate := 105 / 10 }

/-- A standard account used as a concrete witness input. -/
def standardUserEx : UserData :=
  { id := "q", stakedAmount := 1000, rewardsBalance := 0, totalEarnings := 0
    referralCode := "qc", referredBy := none, isPremium := false
    premiumExpiresAt := none, premiumRate := 87 / 10 }

/-- An account whose premium subscription has already expired at time 10. -/
def expiredPremiumUserEx : UserData :=
  { id := "e", stakedAmount := 500, rewardsBalance := 0, totalEarnings := 0
    referralCode := "ec", referredBy := none, isPremium := true
    premiumExpiresAt := some 5, premiumRate := 105 / 10 }

/-- A pool document in its freshly initialized form. -/
def poolEx : PoolData :=
  { totalStaked := 0, totalRewards := 0, dailyRate := 87 / 1000 / 365
    adminCommission := 0, lastRewardDistribution := none }

/-- A store with a single standard staker, used to exercise a distribution
run twice. -/
def oneStakerStateEx : FsState :=
  { users := [standardUserEx], transactions := [], referrals := []
    pool := poolEx }

/-- Stakers X, Y, Z for the partial-failure run. -/
def userXEx : UserData :=
  { id := "X", stakedAmount := 100, rewardsBalance := 0, totalEarnings := 0
    referralCode := "xc", referredBy := none, isPremium := false
    premiumExpiresAt := none, premiumRate := 87 / 10 }

def userYEx : UserData :=
  { id := "Y", stakedAmount := 200, rewardsBalance := 0, totalEarnings := 0
    referralCode := "yc", referredBy := none, isPremium := false
    premiumExpiresAt := none, premiumRate := 87 / 10 }

def userZEx : UserData :=
  { id := "Z", stakedAmount := 300, rewardsBalance := 0, totalEarnings := 0
    referralCode := "zc", referredBy := none, isPremium := false
    premiumExpiresAt := none, premiumRate := 87 / 10 }

/-- A store with the three stakers X, Y, Z. -/
def threeStakerStateEx : FsState :=
  { users := [userXEx, userYEx, userZEx], transactions := [], referrals := []
    pool := poolEx }

/-- depositHandler-side referred account A (referred by B). -/
def dhUserAEx : DhUser :=
  { telegramId := "A", totalStaked := 100, totalEarned := 0, appBalance := 0
    referredBy := some "B" }

/-- depositHandler-side referrer account B. -/
def dhUserBEx : DhUser :=
  { telegramId := "B", totalStaked := 0, totalEarned := 0, appBalance := 0
    referredBy := none }

/-- depositHandler store holding A and B. -/
def dhStateEx : DhState :=
  { users := [dhUserAEx, dhUserBEx], referrals := [], transactions := [] }

/-- A user holding a stake of 5 and rewards of 2, for the wallet claims. -/
def walletUserEx : UserData :=
  { id := "w", stakedAmount := 5, rewardsBalance := 2, totalEarnings := 2
    referralCode := "wc", referredBy := none, isPremium := false
    premiumExpiresAt := none, premiumRate := 87 / 10 }

/-- Store holding the wallet user. -/
def walletStateEx : FsState :=
  { users := [walletUserEx], transactions := [], referrals := []
    pool := poolEx }

/-! Supporting lemmas about the embedded store operations. -/

theorem updateUserBalance_transactions (s : FsState) (uid : String)
    (w : UserUpdate) :
    (updateUserBalance s uid w).transactions = s.transactions := rfl

theorem updateUserBalance_pool (s : FsState) (uid : String) (w : UserUpdate) :
    (updateUserBalance s uid w).pool = s.pool := rfl

theorem logTransaction_transactions (s : FsState) (t : TransactionData) :
    (logTransaction s t).transactions = s.transactions ++ [t] := rfl

theorem logTransaction_pool (s : FsState) (t : TransactionData) :
    (logTransaction s t).pool = s.pool := rfl

theorem getUserData_transactions (s : FsState) (uid : String) :
    (getUserData s uid).2.transactions = s.transactions := by
  unfold getUserData
  cases findUser s uid <;> rfl

theorem getUserData_pool (s : FsState) (uid : String) :
    (getUserData s uid).2.pool = s.pool := by
  unfold getUserData
  cases findUser s uid <;> rfl

theorem countTx_updateUserBalance (s : FsState) (uid : String)
    (w : UserUpdate) (ty : TxType) :
    countTx (updateUserBalance s uid w) ty = countTx s ty := rfl

theorem countFailedTx_updateUserBalance (s : FsState) (uid : String)
    (w : UserUpdate) :
    countFailedTx (updateUserBalance s uid w) = countFailedTx s := rfl

theorem countTx_logTransaction (s : FsState) (t : TransactionData)
    (ty : TxType) :
    countTx (logTransaction s t) ty
      = countTx s ty + (if t.type = ty then 1 else 0) := by
  unfold countTx
  rw [logTransaction_transactions, List.filter_append]
  by_cases h : t.type = ty <;> simp [h]

theorem countFailedTx_logTransaction (s : FsState) (t : TransactionData) :
    countFailedTx (logTransaction s t)
      = countFailedTx s + (if t.status = TxStatus.failed then 1 else 0) := by
  unfold countFailedTx
  rw [logTransaction_transactions, List.filter_append]
  by_cases h : t.status = TxStatus.failed <;> simp [h]

theorem countTx_getUserData (s : FsState) (uid : String) (ty : TxType) :
    countTx (getUserData s uid).2 ty = countTx s ty := by
  unfold countTx
  rw [getUserData_transactions]

theorem countFailedTx_getUserData (s : FsState) (uid : String) :
    countFailedTx (getUserData s uid).2 = countFailedTx s := by
  unfold countFailedTx
  rw [getUserData_transactions]

theorem countTx_processReferralBonus (s : FsState) (rid : String) (amt : ℚ)
    (rfe : String) (ty : TxType) :
    countTx (processReferralBonus s rid amt rfe) ty
      = countTx s ty + (if TxType.referral = ty then 1 else 0) := by
  unfold processReferralBonus
  simp only [countTx_logTransaction, countTx_updateUserBalance,
    countTx_getUserData]

theorem countFailedTx_processReferralBonus (s : FsState) (rid : String)
    (amt : ℚ) (rfe : String) :
    countFailedTx (processReferralBonus s rid amt rfe) = countFailedTx s := by
  unfold processReferralBonus
  simp only [countFailedTx_logTransaction, countFailedTx_updateUserBalance,
    countFailedTx_getUserData]
  simp

theorem processReferralBonus_pool (s : FsState) (rid : String) (amt : ℚ)
    (rfe : String) :
    (processReferralBonus s rid amt rfe).pool = s.pool := by
  unfold processReferralBonus
  simp only [logTransaction_pool, updateUserBalance_pool, getUserData_pool]

theorem countTx_updateUserPremiumStatus (s : FsState) (uid : String)
    (isP : Bool) (e : Option ℚ) (r : ℚ) (ty : TxType) :
    countTx (updateUserPremiumStatus s uid isP e r) ty
      = countTx s ty + (if TxType.premium_payment = ty then 1 else 0) := by
  unfold updateUserPremiumStatus
  simp only [countTx_logTransaction, countTx_updateUserBalance]

theorem countFailedTx_updateUserPremiumStatus (s : FsState) (uid : String)
    (isP : Bool) (e : Option ℚ) (r : ℚ) :
    countFailedTx (updateUserPremiumStatus s uid isP e r) = countFailedTx s := by
  unfold updateUserPremiumStatus
  simp only [countFailedTx_logTransaction, countFailedTx_updateUserBalance]
  simp

theorem updateUserPremiumStatus_pool (s : FsState) (uid : String)
    (isP : Bool) (e : Option ℚ) (r : ℚ) :
    (updateUserPremiumStatus s uid isP e r).pool = s.pool := rfl

theorem countTx_reward_step (failing : List String) (s : FsState)
    (u : UserData) (ts now : ℚ) :
    countTx (distributeUserRewardWithPremium failing s u ts now) TxType.reward
      = countTx s TxType.reward + (if u.id ∈ failing then 0 else 1) := by
  unfold distributeUserRewardWithPremium
  by_cases hp : premiumExpired u now = true <;>
    by_cases hf : u.id ∈ failing <;>
      cases hr : u.referredBy <;>
        simp [hp, hf, hr, countTx_logTransaction, countTx_updateUserBalance,
          countTx_updateUserPremiumStatus, countTx_processReferralBonus]

theorem countFailedTx_step (failing : List String) (s : FsState)
    (u : UserData) (ts now : ℚ) :
    countFailedTx (distributeUserRewardWithPremium failing s u ts now)
      = countFailedTx s := by
  unfold distributeUserRewardWithPremium
  by_cases hp : premiumExpired u now = true <;>
    by_cases hf : u.id ∈ failing <;>
      cases hr : u.referredBy <;>
        simp [hp, hf, hr, countFailedTx_logTransaction,
          countFailedTx_updateUserBalance,
          countFailedTx_updateUserPremiumStatus,
          countFailedTx_processReferralBonus]

theorem pool_step (failing : List String) (s : FsState) (u : UserData)
    (ts now : ℚ) :
    (distributeUserRewardWithPremium failing s u ts now).pool = s.pool := by
  unfold distributeUserRewardWithPremium
  by_cases hp : premiumExpired u now = true <;>
    by_cases hf : u.id ∈ failing <;>
      cases hr : u.referredBy <;>
        simp [hp, hf, hr, logTransaction_pool, updateUserBalance_pool,
          updateUserPremiumStatus_pool, processReferralBonus_pool]

theorem countTx_reward_foldl (failing : List String) (ts now : ℚ)
    (l : List UserData) (s : FsState) :
    countTx (l.foldl
        (fun st u => distributeUserRewardWithPremium failing st u ts now) s)
        TxType.reward
      = countTx s TxType.reward
        + (l.filter fun u => decide (u.id ∉ failing)).length := by
  induction l generalizing s with
  | nil => simp
  | cons u l ih =>
      rw [List.foldl_cons, ih, countTx_reward_step]
      by_cases h : u.id ∈ failing
      · simp [List.filter_cons, h]
      · simp [List.filter_cons, h]
        omega

theorem countFailedTx_foldl (failing : List String) (ts now : ℚ)
    (l : List UserData) (s : FsState) :
    countFailedTx (l.foldl
        (fun st u => distributeUserRewardWithPremium failing st u ts now) s)
      = countFailedTx s := by
  induction l generalizing s with
  | nil => rfl
  | cons u l ih =>
      rw [List.foldl_cons, ih, countFailedTx_step]

theorem pool_foldl (failing : List String) (ts now : ℚ)
    (l : List UserData) (s : FsState) :
    (l.foldl
        (fun st u => distributeUserRewardWithPremium failing st u ts now) s).pool
      = s.pool := by
  induction l generalizing s with
  | nil => rfl
  | cons u l ih =>
      rw [List.foldl_cons, ih, pool_step]

theorem pool_adminCommission_finalize (st : FsState) (t : ℚ) (d : Option ℚ) :
    (FsState.pool
        { st with
          pool :=
            { st.pool with
              totalStaked := t, lastRewardDistribution := d } }).adminCommission
      = st.pool.adminCommission := rfl

theorem stakingUsers_sum_pos (s : FsState) (h : ¬stakingUsers s = []) :
    0 < ((stakingUsers s).map fun u => u.stakedAmount).sum := by
  apply List.sum_pos
  · intro x hx
    obtain ⟨u, hu, rfl⟩ := List.mem_map.mp hx
    unfold stakingUsers at hu
    exact of_decide_eq_true (List.mem_filter.mp hu).2
  · intro hmap
    exact h (List.map_eq_nil_iff.mp hmap)

theorem applyUpdate_id (u : UserData) (w : UserUpdate) :
    (applyUpdate u w).id = u.id := rfl

theorem find?_map_applyUpdate (l : List UserData) (uid : String)
    (w : UserUpdate) :
    (l.map fun u => if u.id = uid then applyUpdate u w else u).find?
        (fun u => decide (u.id = uid))
      = (l.find? fun u => decide (u.id = uid)).map fun u => applyUpdate u w := by
  induction l with
  | nil => rfl
  | cons u l ih =>
      by_cases h : u.id = uid
      · simp [List.find?, h, applyUpdate_id]
      · simp [List.find?, h, ih]

theorem find?_map_applyUpdate_ne (l : List UserData) (uid uid2 : String)
    (w : UserUpdate) (hne : uid2 ≠ uid) :
    (l.map fun u => if u.id = uid then applyUpdate u w else u).find?
        (fun u => decide (u.id = uid2))
      = l.find? fun u => decide (u.id = uid2) := by
  induction l with
  | nil => rfl
  | cons u l ih =>
      have h3 : ¬uid = uid2 := fun he => hne he.symm
      by_cases h : u.id = uid
      · have h2 : ¬u.id = uid2 := by
          rw [h]
          exact h3
        simp [List.find?, h, h2, h3, applyUpdate_id, ih]
      · by_cases h2 : u.id = uid2 <;> simp [List.find?, h, h2, hne, ih]

theorem findUser_updateUserBalance_self (s : FsState) (uid : String)
    (w : UserUpdate) :
    findUser (updateUserBalance s uid w) uid
      = (findUser s uid).map fun u => applyUpdate u w :=
  find?_map_applyUpdate s.users uid w

theorem findUser_updateUserBalance_ne (s : FsState) (uid uid2 : String)
    (w : UserUpdate) (hne : uid2 ≠ uid) :
    findUser (updateUserBalance s uid w) uid2 = findUser s uid2 :=
  find?_map_applyUpdate_ne s.users uid uid2 w hne

theorem findUser_logTransaction (s : FsState) (t : TransactionData)
    (uid : String) :
    findUser (logTransaction s t) uid = findUser s uid := rfl

theorem dhFind?_map_setBalance (l : List DhUser) (tid : String) (b : ℚ) :
    (l.map fun u => if u.telegramId = tid then { u with appBalance := b } else u).find?
        (fun u => decide (u.telegramId = tid))
      = (l.find? fun u => decide (u.telegramId = tid)).map
          fun u => { u with appBalance := b } := by
  induction l with
  | nil => rfl
  | cons u l ih =>
      by_cases h : u.telegramId = tid
      · simp [List.find?, h]
      · simp [List.find?, h, ih]

theorem dhFind?_map_setBalance_ne (l : List DhUser) (tid tid2 : String)
    (b : ℚ) (hne : tid2 ≠ tid) :
    (l.map fun u => if u.telegramId = tid then { u with appBalance := b } else u).find?
        (fun u => decide (u.telegramId = tid2))
      = l.find? fun u => decide (u.telegramId = tid2) := by
  induction l with
  | nil => rfl
  | cons u l ih =>
      have h3 : ¬tid = tid2 := fun he => hne he.symm
      by_cases h : u.telegramId = tid
      · have h2 : ¬u.telegramId = tid2 := by
          rw [h]
          exact h3
        simp [List.find?, h, h2, h3, ih]
      · by_cases h2 : u.telegramId = tid2 <;> simp [List.find?, h, h2, hne, ih]

theorem dhFindUser_setAppBalance_self (s : DhState) (tid : String) (b : ℚ) :
    dhFindUser (dhSetAppBalance s tid b) tid
      = (dhFindUser s tid).map fun u => { u with appBalance := b } :=
  dhFind?_map_setBalance s.users tid b

theorem dhFindUser_setAppBalance_ne (s : DhState) (tid tid2 : String) (b : ℚ)
    (hne : tid2 ≠ tid) :
    dhFindUser (dhSetAppBalance s tid b) tid2 = dhFindUser s tid2 :=
  dhFind?_map_setBalance_ne s.users tid tid2 b hne

/-! Claim theorems. -/

/-- C1: for every distribution run, the sum over all processed accounts of
netAccountReward plus the sum of accountCommission equals the sum of
grossAccountReward exactly (decimal arithmetic, zero epsilon), where
grossAccountReward = stakedAmount * dailyRate, accountCommission =
grossAccountReward * 0.12 and netAccountReward = grossAccountReward -
accountCommission. -/
theorem c1_conservation (s : FsState) (now : ℚ) :
    ((stakingUsers s).map fun u => netReward u now).sum
      + ((stakingUsers s).map fun u => accountCommission u now).sum
      = ((stakingUsers s).map fun u => grossReward u now).sum := by
  generalize stakingUsers s = l
  induction l with
  | nil => simp
  | cons u l ih =>
      simp only [List.map_cons, List.sum_cons]
      have h : netReward u now + accountCommission u now = grossReward u now := by
        unfold netReward
        ring
      linarith

/-- C2 (amended): there is no idempotency guard.  Every invocation of the
distribution entry point performs the full distribution again, appending one
reward transaction per staking account; `lastRewardDistribution` is written
after the run but never consulted, so a second invocation for the same
period pays again. -/
theorem c2_every_invocation_distributes (s : FsState) (now : ℚ) :
    countTx (distributeRewards s now) TxType.reward
      = countTx s TxType.reward + (stakingUsers s).length := by
  simp only [distributeRewards, distributeRewardsF]
  by_cases he : (stakingUsers s).isEmpty = true
  · have hnil : stakingUsers s = [] := by
      cases hl : stakingUsers s with
      | nil => rfl
      | cons a l =>
          rw [hl] at he
          simp at he
    rw [if_pos he, hnil]
    simp
  · have hne : ¬stakingUsers s = [] := by
      intro hl
      rw [hl] at he
      simp at he
    have hpos := stakingUsers_sum_pos s hne
    rw [if_neg he, if_neg hpos.ne']
    have hfold := countTx_reward_foldl []
      (((stakingUsers s).map fun u => u.stakedAmount).sum) now (stakingUsers s) s
    have hfilter :
        ((stakingUsers s).filter fun u => decide (u.id ∉ ([] : List String)))
          = stakingUsers s :=
      List.filter_eq_self.mpr fun a _ => by simp
    rw [hfilter] at hfold
    exact hfold

/-- C2 (counterexample): with one standard staker and marker time 0, the
first run appends one reward transaction and sets the period marker, and a
second run for the same period appends another reward transaction instead of
aborting as a no-op. -/
theorem c2_counterexample :
    countTx (distributeRewards oneStakerStateEx 0) TxType.reward = 1 ∧
    (distributeRewards oneStakerStateEx 0).pool.lastRewardDistribution
      = some 0 ∧
    countTx (distributeRewards (distributeRewards oneStakerStateEx 0) 0)
        TxType.reward = 2 := by
  refine ⟨?_, ?_, ?_⟩
  · with_unfolding_all rfl
  · with_unfolding_all rfl
  · with_unfolding_all rfl

/-- C3 (amended): `distributeRewards` deducts commission per account and
records no commission at all on the pool document, while
`calculateAndDistributeRewards` computes it once on the run total; in exact
decimal arithmetic the per-account commissions sum to the commission rate
applied once to the total gross, so the per-account computation introduces
no drift relative to computing on the total. -/
theorem c3_commission_per_account_no_drift (s : FsState) (now : ℚ) :
    ((stakingUsers s).map fun u => accountCommission u now).sum
        = ADMIN_COMMISSION_RATE
            * ((stakingUsers s).map fun u => grossReward u now).sum ∧
    (distributeRewards s now).pool.adminCommission = s.pool.adminCommission := by
  constructor
  · generalize stakingUsers s = l
    induction l with
    | nil => simp
    | cons u l ih =>
        simp only [List.map_cons, List.sum_cons]
        rw [ih]
        unfold accountCommission
        ring
  · simp only [distributeRewards, distributeRewardsF]
    split
    · rfl
    · split
      · rfl
      · rw [pool_adminCommission_finalize, pool_foldl]

/-- C3 (counterexample): a run over one standard staker records no
commission on the pool (`adminCommission` stays 0) even though the
commission rate applied once to the total gross of the run is nonzero; the
recorded per-run commission therefore does not equal the rate applied to
the total. -/
theorem c3_counterexample :
    (distributeRewards oneStakerStateEx 0).pool.adminCommission = 0 ∧
    ADMIN_COMMISSION_RATE
        * ((stakingUsers oneStakerStateEx).map fun u => grossReward u 0).sum
      ≠ 0 := by
  refine ⟨?_, ?_⟩
  · with_unfolding_all rfl
  · exact of_decide_eq_false (by with_unfolding_all rfl)

/-- C4: two accounts with identical stake 1000 processed in the same run,
one with an active premium tier (10.5 percent per year) and one standard
(8.7 percent per year): the premium gross reward for one day exceeds the
standard gross reward by exactly 1000 * (10.5 - 8.7) / 100 / 365. -/
theorem c4_premium_differential (u v : UserData) (now : ℚ)
    (hu : u.stakedAmount = 1000) (hv : v.stakedAmount = 1000)
    (hup : isPremiumActive u now = true) (hvp : isPremiumActive v now = false) :
    grossReward u now - grossReward v now
      = 1000 * ((105 / 10 : ℚ) - 87 / 10) / 100 / 365 := by
  unfold grossReward dailyRate apyRate
  rw [hu, hv, hup, hvp]
  norm_num

/-- Witness for C4 at concrete accounts. -/
theorem c4_premium_differential_witness :
    grossReward premiumUserEx 0 - grossReward standardUserEx 0
      = 1000 * ((105 / 10 : ℚ) - 87 / 10) / 100 / 365 :=
  c4_premium_differential premiumUserEx standardUserEx 0 rfl rfl
    (by decide) (by decide)

/-- C6 (amended): a per-account failure is caught at the account boundary
and only logged to the console: the run records no `failed` transaction (and
returns no summary tally), while every account outside the failing set still
receives its reward write, so no per-account error aborts the run. -/
theorem c6_failure_swallowed_run_continues (failing : List String)
    (s : FsState) (now : ℚ) :
    countFailedTx (distributeRewardsF failing s now) = countFailedTx s ∧
    countTx (distributeRewardsF failing s now) TxType.reward
      = countTx s TxType.reward
        + ((stakingUsers s).filter fun u => decide (u.id ∉ failing)).length := by
  constructor
  · simp only [distributeRewardsF]
    split
    · rfl
    · split
      · rfl
      · exact countFailedTx_foldl failing _ now (stakingUsers s) s
  · simp only [distributeRewardsF]
    by_cases he : (stakingUsers s).isEmpty = true
    · have hnil : stakingUsers s = [] := by
        cases hl : stakingUsers s with
        | nil => rfl
        | cons a l =>
            rw [hl] at he
            simp at he
      rw [if_pos he, hnil]
      simp
    · have hne : ¬stakingUsers s = [] := by
        intro hl
        rw [hl] at he
        simp at he
      have hpos := stakingUsers_sum_pos s hne
      rw [if_neg he, if_neg hpos.ne']
      exact countTx_reward_foldl failing _ now (stakingUsers s) s

/-- C6 (counterexample): in a run over X, Y, Z where the write for X fails,
no transaction with status `failed` is recorded (the claim demands one plus
an accountsFailed tally), while Y and Z still receive exactly their net
rewards and X keeps its prior balance. -/
theorem c6_counterexample :
    countFailedTx (distributeRewardsF ["X"] threeStakerStateEx 0) = 0 ∧
    (findUser (distributeRewardsF ["X"] threeStakerStateEx 0) "Y").map
        UserData.rewardsBalance = some (round9 (netReward userYEx 0)) ∧
    (findUser (distributeRewardsF ["X"] threeStakerStateEx 0) "Z").map
        UserData.rewardsBalance = some (round9 (netReward userZEx 0)) ∧
    (findUser (distributeRewardsF ["X"] threeStakerStateEx 0) "X").map
        UserData.rewardsBalance = some 0 := by
  refine ⟨?_, ?_, ?_, ?_⟩
  · with_unfolding_all rfl
  · with_unfolding_all rfl
  · with_unfolding_all rfl
  · with_unfolding_all rfl

/-- C7 (amended): an account whose premium expired strictly before the run
is charged the standard 8.7 percent rate, but the `isPremium` flag is
cleared by a separate unguarded account update
(`updateUserPremiumStatus`), distinct from the update that credits the
reward: no single write does both. -/
theorem c7_expired_premium_downgrade (u : UserData) (now e : ℚ)
    (hP : u.isPremium = true) (hE : u.premiumExpiresAt = some e)
    (hlt : e < now) :
    apyRate u now = 87 / 1000 ∧
    accountWrites u now
      = [(u.id, premiumClearUpdate), (u.id, rewardCreditUpdate u now)] ∧
    premiumClearUpdate.rewardsBalance = none ∧
    premiumClearUpdate.totalEarnings = none ∧
    (rewardCreditUpdate u now).isPremium = none := by
  have hnlt : ¬now < e := not_lt.mpr hlt.le
  have hexp : premiumExpired u now = true := by
    unfold premiumExpired
    rw [hP, hE]
    simp [hlt]
  have hact : isPremiumActive u now = false := by
    unfold isPremiumActive
    rw [hP, hE]
    simp [hnlt]
  refine ⟨?_, ?_, rfl, rfl, rfl⟩
  · simp [apyRate, hact]
  · simp [accountWrites, hexp]

/-- Witness for C7 at a concrete expired-premium account at time 10. -/
theorem c7_expired_premium_downgrade_witness :
    apyRate expiredPremiumUserEx 10 = 87 / 1000 ∧
    accountWrites expiredPremiumUserEx 10
      = [(expiredPremiumUserEx.id, premiumClearUpdate),
         (expiredPremiumUserEx.id, rewardCreditUpdate expiredPremiumUserEx 10)] ∧
    premiumClearUpdate.rewardsBalance = none ∧
    premiumClearUpdate.totalEarnings = none ∧
    (rewardCreditUpdate expiredPremiumUserEx 10).isPremium = none :=
  c7_expired_premium_downgrade expiredPremiumUserEx 10 5 rfl rfl (by norm_num)

/-- C7 (counterexample): for a concrete expired-premium account the run
issues two separate account updates, and no single update both clears the
premium flag and applies the reward credit, contradicting the claim that
the flag is cleared as part of the same write that applies the reward. -/
theorem c7_counterexample :
    (accountWrites expiredPremiumUserEx 10).length = 2 ∧
    ∀ w ∈ accountWrites expiredPremiumUserEx 10,
      ¬(w.2.isPremium.isSome = true ∧ w.2.rewardsBalance.isSome = true) := by
  decide

/-- C8: a referral registration whose referral code resolves to the user
itself is rejected at account-update time: `processReferral` returns false
and the store (hence `referredBy`) is unchanged, so a self-referral never
reaches the referral cascader. -/
theorem c8_self_referral_rejected (s : FsState) (userId code : String)
    (r : UserData)
    (hfind : (s.users.find? fun u => decide (u.referralCode = code)) = some r)
    (hself : r.id = userId) :
    processReferral s userId code = (false, s) := by
  unfold processReferral
  rw [hfind]
  simp [hself]

/-- Witness for C8: the single staker submits its own referral code. -/
theorem c8_self_referral_rejected_witness :
    processReferral oneStakerStateEx "q" "qc" = (false, oneStakerStateEx) :=
  c8_self_referral_rejected oneStakerStateEx "q" "qc" standardUserEx rfl rfl

/-- C5 (amended): when account A with `referredBy = B` receives a net reward
of 10 in a run with referral rate 0.10, the depositHandler referral block
credits exactly 1.0 to the appBalance of B (the liquid balance the claim
calls rewardsBalance), creates exactly one Referral record and exactly one
`referral_bonus` transaction, deducts no commission from the bonus and does
not cascade to any other account; the totalEarned of B is left unchanged by
this path. -/
theorem c5_referral_bonus_credit (s : DhState) (A : DhUser) (rid : String)
    (referrer : DhUser)
    (hA : A.referredBy = some rid)
    (href : dhFindUser s rid = some referrer)
    (h9 : Is9dp referrer.appBalance) :
    (dhFindUser (dhProcessRewardReferral s A 10) rid).map DhUser.appBalance
        = some (referrer.appBalance + 1) ∧
    (dhFindUser (dhProcessRewardReferral s A 10) rid).map DhUser.totalEarned
        = some referrer.totalEarned ∧
    (dhProcessRewardReferral s A 10).referrals.length
        = s.referrals.length + 1 ∧
    dhCountTx (dhProcessRewardReferral s A 10) TxType.referral_bonus
        = dhCountTx s TxType.referral_bonus + 1 ∧
    (∀ tid, tid ≠ rid →
        dhFindUser (dhProcessRewardReferral s A 10) tid = dhFindUser s tid) := by
  have hb : (10 : ℚ) * REFERRAL_BONUS_RATE = 1 := by
    unfold REFERRAL_BONUS_RATE
    norm_num
  have h1 : Is9dp (1 : ℚ) := ⟨10 ^ 9, by norm_num⟩
  have hrd : round9 (referrer.appBalance + 10 * REFERRAL_BONUS_RATE)
      = referrer.appBalance + 1 := by
    rw [hb]
    exact round9_eq_self (h9.add h1)
  have hrun : dhProcessRewardReferral s A 10 =
      { users :=
          (dhSetAppBalance s rid (referrer.appBalance + 1)).users
        referrals := s.referrals ++
          [{ referrer := rid, referred := A.telegramId,
             depositAmount := round9 10,
             bonus := round9 (10 * REFERRAL_BONUS_RATE) }]
        transactions := s.transactions ++
          [{ userId := rid, type := TxType.referral_bonus,
             amount := round9 (10 * REFERRAL_BONUS_RATE),
             status := TxStatus.completed }] } := by
    unfold dhProcessRewardReferral
    rw [hA]
    dsimp only
    rw [if_pos (by norm_num : (0 : ℚ) < 10), href]
    dsimp only
    rw [hrd]
    rfl
  refine ⟨?_, ?_, ?_, ?_, ?_⟩
  · have hfind : dhFindUser (dhProcessRewardReferral s A 10) rid
        = (dhFindUser s rid).map fun u => { u with
            appBalance := referrer.appBalance + 1 } := by
      rw [hrun]
      exact dhFindUser_setAppBalance_self s rid (referrer.appBalance + 1)
    rw [hfind, href]
    rfl
  · have hfind : dhFindUser (dhProcessRewardReferral s A 10) rid
        = (dhFindUser s rid).map fun u => { u with
            appBalance := referrer.appBalance + 1 } := by
      rw [hrun]
      exact dhFindUser_setAppBalance_self s rid (referrer.appBalance + 1)
    rw [hfind, href]
    rfl
  · rw [hrun]
    simp
  · rw [hrun]
    unfold dhCountTx
    dsimp only
    rw [List.filter_append]
    simp
  · intro tid hne
    rw [hrun]
    exact dhFindUser_setAppBalance_ne s rid tid (referrer.appBalance + 1) hne

/-- Witness for C5 at the concrete accounts A and B. -/
theorem c5_referral_bonus_credit_witness :
    (dhFindUser (dhProcessRewardReferral dhStateEx dhUserAEx 10) "B").map
        DhUser.appBalance = some (dhUserBEx.appBalance + 1) ∧
    (dhFindUser (dhProcessRewardReferral dhStateEx dhUserAEx 10) "B").map
        DhUser.totalEarned = some dhUserBEx.totalEarned ∧
    (dhProcessRewardReferral dhStateEx dhUserAEx 10).referrals.length
        = dhStateEx.referrals.length + 1 ∧
    dhCountTx (dhProcessRewardReferral dhStateEx dhUserAEx 10)
        TxType.referral_bonus
      = dhCountTx dhStateEx TxType.referral_bonus + 1 ∧
    (∀ tid, tid ≠ "B" →
        dhFindUser (dhProcessRewardReferral dhStateEx dhUserAEx 10) tid
          = dhFindUser dhStateEx tid) :=
  c5_referral_bonus_credit dhStateEx dhUserAEx "B" dhUserBEx rfl rfl
    ⟨0, by norm_num [dhUserBEx]⟩

/-- C5 (counterexample): at the concrete accounts, B receives appBalance
1.0 as claimed, but the totalEarned of B stays 0 instead of increasing by
the bonus amount as the claim states. -/
theorem c5_counterexample :
    (dhFindUser (dhProcessRewardReferral dhStateEx dhUserAEx 10) "B").map
        DhUser.appBalance = some 1 ∧
    (dhFindUser (dhProcessRewardReferral dhStateEx dhUserAEx 10) "B").map
        DhUser.totalEarned = some 0 ∧
    (dhFindUser (dhProcessRewardReferral dhStateEx dhUserAEx 10) "B").map
        DhUser.totalEarned ≠ some (0 + 1) := by
  refine ⟨?_, ?_, ?_⟩
  · with_unfolding_all rfl
  · with_unfolding_all rfl
  · exact of_decide_eq_false (by with_unfolding_all rfl)

/-- C9: a withdrawal of at most rewardsBalance is deducted from
rewardsBalance only (stakedAmount untouched); a larger withdrawal of at most
stakedAmount + rewardsBalance empties rewardsBalance and deducts only the
remainder from stakedAmount; a withdrawal exceeding the sum throws the
insufficient-balance error before any write, leaving both balances
unchanged. -/
theorem c9_withdrawal_order_and_guard (s : FsState) (uid : String)
    (amount : ℚ) (u : UserData) (hu : findUser s uid = some u)
    (h0 : 0 ≤ u.stakedAmount)
    (hs : Is9dp u.stakedAmount) (hr : Is9dp u.rewardsBalance)
    (ha : Is9dp amount) :
    (amount ≤ u.rewardsBalance →
      ∃ s2, processDirectWithdrawal s uid amount = Except.ok s2 ∧
        (findUser s2 uid).map UserData.stakedAmount = some u.stakedAmount ∧
        (findUser s2 uid).map UserData.rewardsBalance
          = some (u.rewardsBalance - amount)) ∧
    (u.rewardsBalance < amount → amount ≤ u.stakedAmount + u.rewardsBalance →
      ∃ s2, processDirectWithdrawal s uid amount = Except.ok s2 ∧
        (findUser s2 uid).map UserData.stakedAmount
          = some (u.stakedAmount - (amount - u.rewardsBalance)) ∧
        (findUser s2 uid).map UserData.rewardsBalance = some 0) ∧
    (u.stakedAmount + u.rewardsBalance < amount →
      processDirectWithdrawal s uid amount
        = Except.error "Insufficient balance") := by
  have hg : getUserData s uid = (u, s) := by
    unfold getUserData
    rw [hu]
  unfold processDirectWithdrawal
  rw [hg]
  dsimp only
  refine ⟨?_, ?_, ?_⟩
  · intro hle
    have hnot : ¬(u.stakedAmount + u.rewardsBalance < amount) :=
      not_lt.mpr (by linarith)
    rw [if_neg hnot]
    refine ⟨_, rfl, ?_, ?_⟩
    · rw [findUser_logTransaction, findUser_updateUserBalance_self, hu]
      simp only [if_pos hle]
      rw [round9_eq_self hs]
      rfl
    · rw [findUser_logTransaction, findUser_updateUserBalance_self, hu]
      simp only [if_pos hle]
      rw [round9_eq_self (hr.sub ha)]
      rfl
  · intro hgt hle
    have hnot : ¬(u.stakedAmount + u.rewardsBalance < amount) :=
      not_lt.mpr hle
    have hnle : ¬(amount ≤ u.rewardsBalance) := not_le.mpr hgt
    rw [if_neg hnot]
    refine ⟨_, rfl, ?_, ?_⟩
    · rw [findUser_logTransaction, findUser_updateUserBalance_self, hu]
      simp only [if_neg hnle]
      rw [round9_eq_self (hs.sub (ha.sub hr))]
      rfl
    · rw [findUser_logTransaction, findUser_updateUserBalance_self, hu]
      simp only [if_neg hnle]
      have hz : Is9dp (0 : ℚ) := ⟨0, by norm_num⟩
      rw [round9_eq_self hz]
      rfl
  · intro hlt
    rw [if_pos hlt]

/-- Witness for C9: the wallet user with stake 5 and rewards 2 withdraws 6,
which drains the rewards and takes the remaining 4 from the stake. -/
theorem c9_withdrawal_order_and_guard_witness :
    ((6 : ℚ) ≤ walletUserEx.rewardsBalance →
      ∃ s2, processDirectWithdrawal walletStateEx "w" 6 = Except.ok s2 ∧
        (findUser s2 "w").map UserData.stakedAmount
          = some walletUserEx.stakedAmount ∧
        (findUser s2 "w").map UserData.rewardsBalance
          = some (walletUserEx.rewardsBalance - 6)) ∧
    (walletUserEx.rewardsBalance < 6 →
      (6 : ℚ) ≤ walletUserEx.stakedAmount + walletUserEx.rewardsBalance →
      ∃ s2, processDirectWithdrawal walletStateEx "w" 6 = Except.ok s2 ∧
        (findUser s2 "w").map UserData.stakedAmount
          = some (walletUserEx.stakedAmount
              - (6 - walletUserEx.rewardsBalance)) ∧
        (findUser s2 "w").map UserData.rewardsBalance = some 0) ∧
    (walletUserEx.stakedAmount + walletUserEx.rewardsBalance < 6 →
      processDirectWithdrawal walletStateEx "w" 6
        = Except.error "Insufficient balance") :=
  c9_withdrawal_order_and_guard walletStateEx "w" 6 walletUserEx rfl
    (by norm_num [walletUserEx])
    ⟨5 * 10 ^ 9, by norm_num [walletUserEx]⟩
    ⟨2 * 10 ^ 9, by norm_num [walletUserEx]⟩
    ⟨6 * 10 ^ 9, by norm_num⟩

/-- C10: processDirectDeposit stores the deposited amount itself as the new
stakedAmount, replacing any previous stake; in particular a second deposit
of 3 after a first deposit of 5 leaves a stake of 3, which is less than the
sum 8 of the two deposits. -/
theorem c10_deposit_replaces_stake :
    (∀ (s : FsState) (uid : String) (amount : ℚ) (u : UserData),
        findUser s uid = some u →
        ∃ s2, processDirectDeposit s uid amount = Except.ok s2 ∧
          (findUser s2 uid).map UserData.stakedAmount = some amount) ∧
    (∃ s1 s2,
        processDirectDeposit walletStateEx "w" 5 = Except.ok s1 ∧
        processDirectDeposit s1 "w" 3 = Except.ok s2 ∧
        (findUser s2 "w").map UserData.stakedAmount = some 3 ∧
        (3 : ℚ) < 5 + 3) := by
  constructor
  · intro s uid amount u hu
    unfold processDirectDeposit
    rw [hu]
    refine ⟨_, rfl, ?_⟩
    rw [findUser_logTransaction, findUser_updateUserBalance_self, hu]
    rfl
  · refine ⟨_, _, rfl, rfl, ?_, by norm_num⟩
    with_unfolding_all rfl

/-- Witness for C10: depositing 7 for the wallet user stores stake 7. -/
theorem c10_deposit_replaces_stake_witness :
    ∃ s2, processDirectDeposit walletStateEx "w" 7 = Except.ok s2 ∧
      (findUser s2 "w").map UserData.stakedAmount = some 7 :=
  c10_deposit_replaces_stake.1 walletStateEx "w" 7 walletUserEx rfl

end Tonvera
